import Mathlib

/-!
# Session compatibility shim of `app.js`

A shallow embedding of the request-processing glue in `src/app.js`:

* the options object handed to `cookieSession` (lines 19-26),
* the patch middleware that installs `regenerate`, `destroy` and `save`
  on `req.session` when they are missing (lines 29-49),
* the order in which the stages are registered on the application
  (lines 19-61).

JavaScript values are embedded as a small sum type with the language's
truthiness test.  A session object is an insertion-ordered list of own
properties; reading a property that is not there gives `undefined`.  (The
prototype of a cookie-backed session object supplies none of the three
property names the middleware looks at.)  Function values carry the
identity of the closure: a function supplied from outside the file is
`Fn.native`, a function created by one of the three function expressions
in the middleware is `Fn.subst` together with the allocation number of
the closure, so that creating a function twice gives two different
values.
-/

set_option autoImplicit false

namespace App

/-! ## Values -/

/-- The three function expressions written in the middleware. -/
inductive SubstKind where
  | regenerate
  | destroy
  | save
  deriving DecidableEq, Repr

/-- Function values.  `native id` is any function that is not created by
the middleware (a session method provided by the session library, a
completion callback, the framework's `next`).  `subst k c` is the closure
number `c` created from the function expression `k`. -/
inductive Fn where
  | native (id : Nat)
  | subst (kind : SubstKind) (closure : Nat)
  deriving DecidableEq, Repr

/-- JavaScript values, as far as the middleware can tell them apart. -/
inductive Value where
  | undefined
  | null
  | bool (b : Bool)
  | num (n : Int)
  | nan
  | str (s : String)
  | fn (f : Fn)
  | obj (ref : Nat)
  deriving DecidableEq, Repr

/-- The result of `ToBoolean`: what `if (v)` and `!v` look at. -/
def Value.truthy : Value → Bool
  | .undefined => false
  | .null => false
  | .bool b => b
  | .num n => n != 0
  | .nan => false
  | .str s => s != ""
  | .fn _ => true
  | .obj _ => true

/-- A value that can be called. -/
def Value.isCallable : Value → Bool
  | .fn _ => true
  | _ => false

/-! ## Session objects and the request -/

/-- Own properties of a session object, in insertion order. -/
abbrev Session := List (String × Value)

/-- Property read `s[k]`: the stored value, `undefined` when there is none. -/
def Session.get : Session → String → Value
  | [], _ => .undefined
  | (k', v) :: rest, k => if k' = k then v else Session.get rest k

/-- Whether `k` is an own property of the session object. -/
def Session.has : Session → String → Bool
  | [], _ => false
  | (k', _) :: rest, k => if k' = k then true else Session.has rest k

/-- Property write `s[k] = v`: overwrite in place, or append a new property. -/
def Session.set : Session → String → Value → Session
  | [], k, v => [(k, v)]
  | (k', v') :: rest, k, v =>
    if k' = k then (k', v) :: rest else (k', v') :: Session.set rest k v

/-- What `req.session` evaluates to. -/
inductive SessionRef where
  | undefined
  | null
  | obj (s : Session)
  deriving DecidableEq, Repr

/-- Truthiness of `req.session`. -/
def SessionRef.truthy : SessionRef → Bool
  | .obj _ => true
  | _ => false

/-- The request object: its session reference and its other properties. -/
structure Req where
  session : SessionRef
  props : List (String × Value)
  deriving DecidableEq, Repr

/-- The response object. -/
structure Res where
  props : List (String × Value)
  deriving DecidableEq, Repr

/-- The mutable state one request handler sees.  `closures` counts the
function objects created so far by the middleware's function expressions. -/
structure Heap where
  req : Req
  res : Res
  closures : Nat
  deriving DecidableEq, Repr

/-- Runtime errors. -/
inductive JsError where
  | typeError (what : String)
  | thrown (v : Value)
  deriving DecidableEq, Repr

/-- Evaluate `req.session.k`.  Reading a property of `null` or `undefined`
is a `TypeError`. -/
def readSessionProp (h : Heap) (k : String) : Except JsError Value :=
  match h.req.session with
  | .obj s => .ok (s.get k)
  | .null => .error (.typeError "cannot read properties of null")
  | .undefined => .error (.typeError "cannot read properties of undefined")

/-- Execute `req.session.k = v`. -/
def writeSessionProp (h : Heap) (k : String) (v : Value) : Except JsError Heap :=
  match h.req.session with
  | .obj s => .ok { h with req := { h.req with session := .obj (s.set k v) } }
  | .null => .error (.typeError "cannot set properties of null")
  | .undefined => .error (.typeError "cannot set properties of undefined")

/-- Evaluate a function expression of the middleware: a new closure. -/
def newClosure (h : Heap) (kind : SubstKind) : Value × Heap :=
  (.fn (.subst kind h.closures), { h with closures := h.closures + 1 })

/-! ## The patch middleware (lines 29-49) -/

/-- One of the three blocks
`if (!req.session.k) { req.session.k = function (cb) {...}; }`. -/
def installIfMissing (k : String) (kind : SubstKind) (h : Heap) : Except JsError Heap := do
  let v ← readSessionProp h k
  if !v.truthy then
    let (f, h1) := newClosure h kind
    writeSessionProp h1 k f
  else
    pure h

/-- The body of the middleware up to, not including, the call `next()`. -/
def patchSession (h : Heap) : Except JsError Heap := do
  if h.req.session.truthy then
    let h1 ← installIfMissing "regenerate" .regenerate h
    let h2 ← installIfMissing "destroy" .destroy h1
    let h3 ← installIfMissing "save" .save h2
    pure h3
  else
    pure h

/-! ## Calls -/

/-- What a call into a function from outside this file leaves behind: the
heap when it returns or throws, and the error when it throws. -/
structure Ret where
  heap : Heap
  error : Option JsError

/-- Behaviour of the functions from outside this file, by identity:
arguments and heap in, heap (and possibly an error) out. -/
abbrev ExtSem := Nat → List Value → Heap → Ret

/-- The heap together with the chronological record of the calls that the
code of this file made into outside functions (callee and arguments). -/
structure World where
  heap : Heap
  calls : List (Nat × List Value)

/-- Result of running code of this file: the world it leaves, and the
error if it threw. -/
structure Outcome where
  world : World
  error : Option JsError

/-- Throwing a `TypeError` in world `w`. -/
def throwTypeError (what : String) (w : World) : Outcome :=
  { world := w, error := some (.typeError what) }

/-- A call `f(args)` of the outside function `n`: recorded, then run. -/
def callExternal (env : ExtSem) (n : Nat) (args : List Value) (w : World) : Outcome :=
  let r := env n args w.heap
  { world := { heap := r.heap, calls := w.calls ++ [(n, args)] }, error := r.error }

/-- The statement `req.session = null`. -/
def assignSessionNull (w : World) : World :=
  { w with heap := { w.heap with req := { w.heap.req with session := .null } } }

/-- Body of a function created by the middleware, given how the call
`cb()` behaves:

* regenerate: `cb();`
* destroy: `req.session = null; cb();`
* save: `cb();` -/
def runSubst (kind : SubstKind) (callCb : World → Outcome) (w : World) : Outcome :=
  match kind with
  | .regenerate => callCb w
  | .destroy => callCb (assignSessionNull w)
  | .save => callCb w

/-- The call `f()` with no arguments.  A function of the middleware called
this way has `cb` undefined, so its `cb()` throws. -/
def callNullary (env : ExtSem) (f : Value) (w : World) : Outcome :=
  match f with
  | .fn (.native n) => callExternal env n [] w
  | .fn (.subst kind _) => runSubst kind (throwTypeError "cb is not a function") w
  | _ => throwTypeError "not a function" w

/-- The call `f(args)`. -/
def callValue (env : ExtSem) (f : Value) (args : List Value) (w : World) : Outcome :=
  match f with
  | .fn (.native n) => callExternal env n args w
  | .fn (.subst kind _) => runSubst kind (callNullary env (args.headD .undefined)) w
  | _ => throwTypeError "not a function" w

/-- The method call `req.session.k(args)`. -/
def callSessionMethod (env : ExtSem) (k : String) (args : List Value) (w : World) : Outcome :=
  match readSessionProp w.heap k with
  | .ok f => callValue env f args w
  | .error e => { world := w, error := some e }

/-- The whole middleware `(req, res, next) => { ...; next(); }`. -/
def sessionPatch (env : ExtSem) (next : Value) (w : World) : Outcome :=
  match patchSession w.heap with
  | .ok h => callNullary env next { w with heap := h }
  | .error e => { world := w, error := some e }

/-! ## Cookie options (lines 19-26) -/

/-- The options object passed to `cookieSession`. -/
structure CookieOptions where
  maxAge : Nat
  keys : List String
  secure : Bool
  httpOnly : Bool
  deriving DecidableEq, Repr

/-- The object literal of lines 20-25.  `nodeEnv` is `process.env.NODE_ENV`
(`none` when the variable is not set), `cookieKey` is
`keys.session.cookieKey`. -/
def cookieOptions (nodeEnv : Option String) (cookieKey : String) : CookieOptions :=
  { maxAge := 24 * 60 * 60 * 1000
    keys := [cookieKey]
    secure := decide (nodeEnv = some "production")
    httpOnly := true }

/-! ## Stage registration (lines 19-61) -/

/-- The request-processing stages registered on the application. -/
inductive Stage where
  | cookieSession
  | sessionPatch
  | passportInitialize
  | passportSession
  | authRoutes
  | profileRoutes
  | homeRoute
  deriving DecidableEq, Repr

/-- The stages in the order of the `app.use` / `app.get` calls. -/
def appStack : List Stage :=
  [.cookieSession, .sessionPatch, .passportInitialize, .passportSession,
   .authRoutes, .profileRoutes, .homeRoute]

/-- What the framework's router looks at in a request. -/
structure HttpRequest where
  method : String
  segments : List String
  deriving DecidableEq, Repr

/-- A path segment with its ASCII capitals turned into small letters. -/
def lowerSegment (seg : String) : String :=
  String.mk (seg.data.map Char.toLower)

/-- Whether the router hands the request to the stage: a stage registered
with `app.use(fn)` sees every request, one mounted under a path sees the
requests whose first path segment is the mount path, compared without
regard to letter case (the framework's default), the `GET /` route sees
`GET` and `HEAD` of the root path. -/
def stageMatches (st : Stage) (r : HttpRequest) : Bool :=
  match st with
  | .cookieSession => true
  | .sessionPatch => true
  | .passportInitialize => true
  | .passportSession => true
  | .authRoutes => r.segments.head?.map lowerSegment == some "auth"
  | .profileRoutes => r.segments.head?.map lowerSegment == some "profile"
  | .homeRoute => (r.method == "GET" || r.method == "HEAD") && r.segments.isEmpty

/-- How a stage hands over: `next()`, `next(err)`, or it ends the response
(or never calls `next`). -/
inductive StageResult where
  | next
  | nextErr
  | ended
  deriving DecidableEq, Repr

/-- The router's walk over a stack for one request: the stages that run,
in the order in which they run.  A stage that does not call `next()` is
the last one to run: no stage of this application takes an error
argument, so after `next(err)` the rest of the stack is skipped. -/
def dispatch (result : Stage → StageResult) (r : HttpRequest) : List Stage → List Stage
  | [] => []
  | st :: rest =>
    if stageMatches st r then
      match result st with
      | .next => st :: dispatch result r rest
      | .nextErr => [st]
      | .ended => [st]
    else
      dispatch result r rest

/-- The stages of the authentication layer and the route handlers. -/
def Stage.isAuthOrRoute : Stage → Bool
  | .cookieSession => false
  | .sessionPatch => false
  | _ => true

/-! ## Auxiliary definitions used in the statements -/

/-- The property names the middleware looks at, with the function
expression installed under each. -/
def capabilities : List (String × SubstKind) :=
  [("regenerate", .regenerate), ("destroy", .destroy), ("save", .save)]

/-- Closed form of one install block on a session object `s` with closure
counter `c`. -/
def installOn (k : String) (kind : SubstKind) (p : Session × Nat) : Session × Nat :=
  if (p.1.get k).truthy then p else (p.1.set k (.fn (.subst kind p.2)), p.2 + 1)

/-- Closed form of the three install blocks in sequence. -/
def patchOn (p : Session × Nat) : Session × Nat :=
  installOn "save" .save (installOn "destroy" .destroy (installOn "regenerate" .regenerate p))

/-- An outside world in which every outside function returns at once and
changes nothing. -/
def idleEnv : ExtSem := fun _ _ h => { heap := h, error := none }

/-! ## Sample requests -/

/-- A request as it leaves the session stage when no cookie came in: an
empty session object. -/
def freshHeap : Heap :=
  { req := { session := .obj [], props := [] }, res := { props := [] }, closures := 0 }

/-- A request of a signed-in user whose session object brings its own
`regenerate` (outside function 7) and has `save` set to `null`. -/
def signedInHeap : Heap :=
  { req := { session := .obj [("passport", .obj 1), ("regenerate", .fn (.native 7)),
                              ("save", .null)],
             props := [("url", .str "/profile")] },
    res := { props := [("statusCode", .num 200)] },
    closures := 4 }

/-- The session object of `signedInHeap`. -/
def signedInSession : Session :=
  [("passport", .obj 1), ("regenerate", .fn (.native 7)), ("save", .null)]

/-- A request whose session object holds an identity and nothing else. -/
def userHeap : Heap :=
  { req := { session := .obj [("passport", .obj 1)], props := [] },
    res := { props := [] }, closures := 0 }

/-- A request whose session object holds a string under `save`. -/
def draftHeap : Heap :=
  { req := { session := .obj [("save", .str "draft")], props := [] },
    res := { props := [] }, closures := 0 }

/-- A request without a session: `req.session` is `undefined`. -/
def noSessionHeap : Heap :=
  { req := { session := .undefined, props := [("url", .str "/")] },
    res := { props := [] }, closures := 0 }

/-! ## Lemmas on session objects -/

theorem Session.get_set_same (s : Session) (k : String) (v : Value) :
    (Session.set s k v).get k = v := by
  induction s with
  | nil => simp [Session.set, Session.get]
  | cons p rest ih =>
    obtain ⟨k', v'⟩ := p
    by_cases hk : k' = k
    · simp [Session.set, Session.get, hk]
    · simp [Session.set, Session.get, hk, ih]

theorem Session.get_set_other (s : Session) (k k2 : String) (v : Value) (hne : k2 ≠ k) :
    (Session.set s k v).get k2 = s.get k2 := by
  induction s with
  | nil =>
    have hne2 : ¬ k = k2 := fun h => hne h.symm
    simp [Session.set, Session.get, hne2]
  | cons p rest ih =>
    obtain ⟨k', v'⟩ := p
    by_cases hk : k' = k
    · subst hk
      have hne2 : ¬ k' = k2 := fun h => hne h.symm
      simp [Session.set, Session.get, hne2]
    · by_cases hk2 : k' = k2
      · subst hk2
        simp [Session.set, Session.get, hk]
      · simp [Session.set, Session.get, hk, hk2, ih]

theorem Session.has_set (s : Session) (k k2 : String) (v : Value) :
    (Session.set s k v).has k2 = (s.has k2 || decide (k2 = k)) := by
  induction s with
  | nil =>
    by_cases h : k = k2
    · simp [Session.set, Session.has, h]
    · have h2 : ¬ k2 = k := fun e => h e.symm
      simp [Session.set, Session.has, h, h2]
  | cons p rest ih =>
    obtain ⟨k', v'⟩ := p
    by_cases hk : k' = k
    · subst hk
      by_cases hk2 : k' = k2
      · simp [Session.set, Session.has, hk2]
      · have h2 : ¬ k2 = k' := fun e => hk2 e.symm
        simp [Session.set, Session.has, hk2, h2]
    · by_cases hk2 : k' = k2
      · subst hk2
        simp [Session.set, Session.has, hk]
      · simp [Session.set, Session.has, hk, hk2, ih]

/-! ## The middleware in closed form -/

theorem installIfMissing_obj (k : String) (kind : SubstKind) (h : Heap) (s : Session)
    (hs : h.req.session = .obj s) :
    installIfMissing k kind h =
      .ok { h with req := { h.req with session := .obj (installOn k kind (s, h.closures)).1 }
                   closures := (installOn k kind (s, h.closures)).2 } := by
  obtain ⟨⟨sess, props⟩, res, c⟩ := h
  simp only at hs
  subst hs
  unfold installIfMissing installOn readSessionProp
  by_cases ht : (s.get k).truthy = true
  · simp [ht, bind, Except.bind, pure, Except.pure]
  · simp [ht, bind, Except.bind, newClosure, writeSessionProp]

theorem patchSession_obj (h : Heap) (s : Session) (hs : h.req.session = .obj s) :
    patchSession h =
      .ok { h with req := { h.req with session := .obj (patchOn (s, h.closures)).1 }
                   closures := (patchOn (s, h.closures)).2 } := by
  unfold patchSession
  rw [hs]
  simp only [SessionRef.truthy, if_true]
  rw [installIfMissing_obj "regenerate" .regenerate h s hs]
  simp only [bind, Except.bind]
  rw [installIfMissing_obj "destroy" .destroy _ _ rfl]
  simp only [bind, Except.bind]
  rw [installIfMissing_obj "save" .save _ _ rfl]
  simp [patchOn, pure, Except.pure]

theorem patchSession_absent (h : Heap) (hs : h.req.session.truthy = false) :
    patchSession h = .ok h := by
  unfold patchSession
  simp [hs, pure, Except.pure]

/-! ## Lemmas on the closed form -/

theorem installOn_truthy (k : String) (kind : SubstKind) (p : Session × Nat)
    (ht : (p.1.get k).truthy = true) : installOn k kind p = p := by
  simp [installOn, ht]

theorem installOn_falsy (k : String) (kind : SubstKind) (p : Session × Nat)
    (ht : (p.1.get k).truthy = false) :
    installOn k kind p = (p.1.set k (.fn (.subst kind p.2)), p.2 + 1) := by
  simp [installOn, ht]

theorem installOn_get_other (k k2 : String) (kind : SubstKind) (p : Session × Nat)
    (hne : k2 ≠ k) : (installOn k kind p).1.get k2 = p.1.get k2 := by
  unfold installOn
  split
  · rfl
  · exact Session.get_set_other p.1 k k2 _ hne

theorem installOn_get_same (k : String) (kind : SubstKind) (p : Session × Nat) :
    (installOn k kind p).1.get k =
      if (p.1.get k).truthy then p.1.get k else .fn (.subst kind p.2) := by
  unfold installOn
  split
  · rfl
  · exact Session.get_set_same p.1 k _

theorem installOn_counter_le (k : String) (kind : SubstKind) (p : Session × Nat) :
    p.2 ≤ (installOn k kind p).2 := by
  unfold installOn
  split
  · exact Nat.le_refl _
  · exact Nat.le_succ _

theorem installOn_has (k k2 : String) (kind : SubstKind) (p : Session × Nat) :
    (installOn k kind p).1.has k2 = true ↔ (p.1.has k2 = true ∨ (k2 = k ∧ (p.1.get k).truthy = false)) := by
  unfold installOn
  by_cases ht : (p.1.get k).truthy = true
  · simp [ht]
  · simp [ht, Session.has_set]

/-- Value found under a capability name after the three blocks: the value
that was there when it was truthy, a closure of the matching function
expression, created by this run, when it was not. -/
theorem patchOn_get_capability (s : Session) (c : Nat) (k : String) (kind : SubstKind)
    (hk : (k, kind) ∈ capabilities) :
    ((s.get k).truthy = true ∧ (patchOn (s, c)).1.get k = s.get k) ∨
    ((s.get k).truthy = false ∧
      ∃ c', c ≤ c' ∧ c' < (patchOn (s, c)).2 ∧ (patchOn (s, c)).1.get k = .fn (.subst kind c')) := by
  have h12 : ("destroy" : String) ≠ "regenerate" := by decide
  have h13 : ("save" : String) ≠ "regenerate" := by decide
  have h21 : ("regenerate" : String) ≠ "destroy" := by decide
  have h23 : ("save" : String) ≠ "destroy" := by decide
  have h31 : ("regenerate" : String) ≠ "save" := by decide
  have h32 : ("destroy" : String) ≠ "save" := by decide
  have l1 := installOn_counter_le "regenerate" .regenerate (s, c)
  have l2 := installOn_counter_le "destroy" .destroy (installOn "regenerate" .regenerate (s, c))
  have l3 := installOn_counter_le "save" .save
    (installOn "destroy" .destroy (installOn "regenerate" .regenerate (s, c)))
  simp only [capabilities, List.mem_cons, Prod.mk.injEq, List.mem_singleton, List.mem_nil_iff,
    or_false] at hk
  unfold patchOn
  rcases hk with ⟨rfl, rfl⟩ | ⟨rfl, rfl⟩ | ⟨rfl, rfl⟩
  · rw [installOn_get_other _ _ _ _ h31, installOn_get_other _ _ _ _ h21, installOn_get_same]
    by_cases ht : (s.get "regenerate").truthy = true
    · left
      simp [ht]
    · right
      simp only [Bool.not_eq_true] at ht
      refine ⟨ht, c, Nat.le_refl _, ?_, by simp [ht]⟩
      have : (installOn "regenerate" .regenerate (s, c)).2 = c + 1 := by
        rw [installOn_falsy _ _ _ ht]
      omega
  · rw [installOn_get_other _ _ _ _ h32, installOn_get_same, installOn_get_other _ _ _ _ h12]
    by_cases ht : (s.get "destroy").truthy = true
    · left
      simp [ht]
    · right
      simp only [Bool.not_eq_true] at ht
      have ht2 : ((installOn "regenerate" .regenerate (s, c)).1.get "destroy").truthy = false := by
        rw [installOn_get_other _ _ _ _ h12]
        exact ht
      refine ⟨ht, (installOn "regenerate" .regenerate (s, c)).2, l1, ?_, by simp [ht]⟩
      have : (installOn "destroy" .destroy (installOn "regenerate" .regenerate (s, c))).2
          = (installOn "regenerate" .regenerate (s, c)).2 + 1 := by
        rw [installOn_falsy _ _ _ ht2]
      omega
  · rw [installOn_get_same, installOn_get_other _ _ _ _ h23, installOn_get_other _ _ _ _ h13]
    by_cases ht : (s.get "save").truthy = true
    · left
      simp [ht]
    · right
      simp only [Bool.not_eq_true] at ht
      have ht2 : ((installOn "destroy" .destroy
          (installOn "regenerate" .regenerate (s, c))).1.get "save").truthy = false := by
        rw [installOn_get_other _ _ _ _ h23, installOn_get_other _ _ _ _ h13]
        exact ht
      refine ⟨ht, (installOn "destroy" .destroy (installOn "regenerate" .regenerate (s, c))).2,
        Nat.le_trans l1 l2, ?_, by simp [ht]⟩
      rw [installOn_falsy _ _ _ ht2]
      exact Nat.lt_succ_self _

/-- A property that is none of the three names keeps its value. -/
theorem patchOn_get_other (s : Session) (c : Nat) (k : String)
    (hk : ∀ kind, (k, kind) ∉ capabilities) :
    (patchOn (s, c)).1.get k = s.get k := by
  have h1 : k ≠ "regenerate" := fun e => hk .regenerate (by simp [capabilities, e])
  have h2 : k ≠ "destroy" := fun e => hk .destroy (by simp [capabilities, e])
  have h3 : k ≠ "save" := fun e => hk .save (by simp [capabilities, e])
  unfold patchOn
  rw [installOn_get_other _ _ _ _ h3, installOn_get_other _ _ _ _ h2,
    installOn_get_other _ _ _ _ h1]

/-- Own properties before and after the three blocks. -/
theorem patchOn_has (s : Session) (c : Nat) (k : String) :
    (s.has k = true → (patchOn (s, c)).1.has k = true) ∧
    ((patchOn (s, c)).1.has k = true → s.has k = true ∨ ∃ kind, (k, kind) ∈ capabilities) := by
  unfold patchOn
  constructor
  · intro hh
    rw [installOn_has, installOn_has, installOn_has]
    exact Or.inl (Or.inl (Or.inl hh))
  · intro hh
    rw [installOn_has, installOn_has, installOn_has] at hh
    rcases hh with ((hh | ⟨e, _⟩) | ⟨e, _⟩) | ⟨e, _⟩
    · exact Or.inl hh
    · exact Or.inr ⟨.regenerate, by simp [capabilities, e]⟩
    · exact Or.inr ⟨.destroy, by simp [capabilities, e]⟩
    · exact Or.inr ⟨.save, by simp [capabilities, e]⟩

/-- After the three blocks every capability name holds a truthy value, so
running them again changes nothing. -/
theorem patchOn_idem (p : Session × Nat) : patchOn (patchOn p) = patchOn p := by
  have h12 : ("destroy" : String) ≠ "regenerate" := by decide
  have h13 : ("save" : String) ≠ "regenerate" := by decide
  have h21 : ("regenerate" : String) ≠ "destroy" := by decide
  have h23 : ("save" : String) ≠ "destroy" := by decide
  have h31 : ("regenerate" : String) ≠ "save" := by decide
  have h32 : ("destroy" : String) ≠ "save" := by decide
  have key : ∀ (k : String) (kind : SubstKind) (q : Session × Nat),
      ((installOn k kind q).1.get k).truthy = true := by
    intro k kind q
    rw [installOn_get_same]
    split
    · assumption
    · rfl
  have e1 : installOn "regenerate" .regenerate (patchOn p) = patchOn p := by
    apply installOn_truthy
    unfold patchOn
    rw [installOn_get_other _ _ _ _ h31, installOn_get_other _ _ _ _ h21]
    exact key _ _ _
  have e2 : installOn "destroy" .destroy (patchOn p) = patchOn p := by
    apply installOn_truthy
    unfold patchOn
    rw [installOn_get_other _ _ _ _ h32]
    exact key _ _ _
  have e3 : installOn "save" .save (patchOn p) = patchOn p := by
    apply installOn_truthy
    unfold patchOn
    exact key _ _ _
  show installOn "save" .save (installOn "destroy" .destroy
    (installOn "regenerate" .regenerate (patchOn p))) = patchOn p
  rw [e1, e2, e3]

/-- Concrete run of the middleware body on a session object that holds a
string under `save`: a truthy value that is not a function passes the
test of line 42 and stays where it is. -/
theorem patchSession_draft_example :
    patchSession draftHeap = .ok
      { req := { session := .obj [("save", .str "draft"),
                                  ("regenerate", .fn (.subst .regenerate 0)),
                                  ("destroy", .fn (.subst .destroy 1))],
                 props := [] },
        res := { props := [] }, closures := 2 } := by
  rfl

/-! ## The claims -/

/-- C1 (amended): for a request with a session object, each of
`regenerate`, `destroy`, `save` whose value on the session is absent or
falsy (the test `!req.session.k` of lines 31, 36 and 42) holds, after the
middleware body has run, a callable value: a closure of the matching
function expression created by this run.  In particular a session on which
all three are absent or falsy exposes all three.  A name that holds a
truthy value keeps that value, callable or not. -/
theorem shim_installs_missing_capabilities (h : Heap) (s : Session)
    (hs : h.req.session = .obj s) :
    ∃ h' s', patchSession h = .ok h' ∧ h'.req.session = .obj s' ∧
      (∀ k kind, (k, kind) ∈ capabilities → (s.get k).truthy = false →
        (s'.get k).isCallable = true ∧
          ∃ c, h.closures ≤ c ∧ c < h'.closures ∧ s'.get k = .fn (.subst kind c)) ∧
      ((∀ k kind, (k, kind) ∈ capabilities → (s.get k).truthy = false) →
        ∀ k kind, (k, kind) ∈ capabilities → (s'.get k).isCallable = true) ∧
      (∀ k kind, (k, kind) ∈ capabilities → (s.get k).truthy = true →
        s'.get k = s.get k) := by
  have main : ∀ k kind, (k, kind) ∈ capabilities → (s.get k).truthy = false →
      ((patchOn (s, h.closures)).1.get k).isCallable = true ∧
        ∃ c, h.closures ≤ c ∧ c < (patchOn (s, h.closures)).2 ∧
          (patchOn (s, h.closures)).1.get k = .fn (.subst kind c) := by
    intro k kind hk hf
    rcases patchOn_get_capability s h.closures k kind hk with ⟨ht, _⟩ | ⟨_, c, hle, hlt, hget⟩
    · rw [hf] at ht
      exact absurd ht (by decide)
    · exact ⟨by rw [hget]; rfl, c, hle, hlt, hget⟩
  refine ⟨_, _, patchSession_obj h s hs, rfl, main, ?_, ?_⟩
  · intro hall k kind hk
    exact (main k kind hk (hall k kind hk)).1
  · intro k kind hk ht
    rcases patchOn_get_capability s h.closures k kind hk with ⟨_, hget⟩ | ⟨hf, _⟩
    · exact hget
    · rw [ht] at hf
      exact absurd hf (by decide)

theorem shim_installs_missing_capabilities_witness :
    freshHeap.req.session = .obj [] ∧
    ∃ h' s', patchSession freshHeap = .ok h' ∧ h'.req.session = .obj s' ∧
      (∀ k kind, (k, kind) ∈ capabilities → (Session.get [] k).truthy = false →
        (s'.get k).isCallable = true ∧
          ∃ c, freshHeap.closures ≤ c ∧ c < h'.closures ∧ s'.get k = .fn (.subst kind c)) ∧
      ((∀ k kind, (k, kind) ∈ capabilities → (Session.get [] k).truthy = false) →
        ∀ k kind, (k, kind) ∈ capabilities → (s'.get k).isCallable = true) ∧
      (∀ k kind, (k, kind) ∈ capabilities → (Session.get [] k).truthy = true →
        s'.get k = Session.get [] k) :=
  ⟨rfl, shim_installs_missing_capabilities freshHeap [] rfl⟩

/-- C1 as worded fails: a session object holding the string `draft` under
`save` has no `save` operation, yet the test of line 42 finds a truthy
value, lines 43-45 are skipped, and after the middleware body `save` is
still that string; calling `req.session.save(cb)` throws a `TypeError`
and never reaches the callback.  So it is not true that every capability
the session has no invocable operation for is invocable afterwards. -/
theorem shim_installs_missing_capabilities_counterexample :
    draftHeap.req.session = .obj [("save", .str "draft")] ∧
    (Session.get [("save", .str "draft")] "save").isCallable = false ∧
    (∃ h' s', patchSession draftHeap = .ok h' ∧ h'.req.session = .obj s' ∧
      s'.get "save" = .str "draft" ∧ (s'.get "save").isCallable = false ∧
      (callSessionMethod idleEnv "save" [.fn (.native 3)] ⟨h', []⟩).error
        = some (.typeError "not a function") ∧
      (callSessionMethod idleEnv "save" [.fn (.native 3)] ⟨h', []⟩).world.calls = []) ∧
    ¬ (∀ (h : Heap) (s : Session), h.req.session = .obj s →
        ∀ k kind, (k, kind) ∈ capabilities → (s.get k).isCallable = false →
          ∃ h' s', patchSession h = .ok h' ∧ h'.req.session = .obj s' ∧
            (s'.get k).isCallable = true) := by
  refine ⟨rfl, by decide, ⟨_, _, patchSession_draft_example, rfl, by decide, by decide,
    rfl, rfl⟩, ?_⟩
  intro hall
  obtain ⟨h', s', hp, hs', hc⟩ :=
    hall draftHeap [("save", .str "draft")] rfl "save" .save (by simp [capabilities])
      (by decide)
  rw [patchSession_draft_example] at hp
  injection hp with hp
  subst hp
  injection hs' with hs'
  subst hs'
  revert hc
  decide

/-- C2: when the session object already holds an outside (native) function
under one of the three names, the middleware leaves exactly that function
there, so that calling the method runs the native function with the
caller's arguments and nothing else.  This holds for every subset of the
three names at once: every name holding a callable value keeps it, and
only the names whose value is absent or falsy receive a new closure. -/
theorem shim_keeps_native_capabilities (h : Heap) (s : Session)
    (hs : h.req.session = .obj s) (k : String) (kind : SubstKind)
    (hk : (k, kind) ∈ capabilities) (n : Nat) (hn : s.get k = .fn (.native n)) :
    ∃ h' s', patchSession h = .ok h' ∧ h'.req.session = .obj s' ∧
      s'.get k = .fn (.native n) ∧
      (∀ env args calls,
        callSessionMethod env k args ⟨h', calls⟩ = callExternal env n args ⟨h', calls⟩) ∧
      (∀ k2 kind2, (k2, kind2) ∈ capabilities → (s.get k2).isCallable = true →
        s'.get k2 = s.get k2) ∧
      (∀ k2 kind2, (k2, kind2) ∈ capabilities → (s.get k2).truthy = false →
        ∃ c, h.closures ≤ c ∧ s'.get k2 = .fn (.subst kind2 c)) := by
  have keep : ∀ k2 kind2, (k2, kind2) ∈ capabilities → (s.get k2).isCallable = true →
      (patchOn (s, h.closures)).1.get k2 = s.get k2 := by
    intro k2 kind2 hk2 hc
    rcases patchOn_get_capability s h.closures k2 kind2 hk2 with ⟨_, hget⟩ | ⟨hf, _⟩
    · exact hget
    · cases hv : s.get k2 <;> rw [hv] at hc hf <;> simp [Value.isCallable, Value.truthy] at hc hf
  have hget : (patchOn (s, h.closures)).1.get k = .fn (.native n) := by
    rw [keep k kind hk (by rw [hn]; rfl), hn]
  refine ⟨_, _, patchSession_obj h s hs, rfl, hget, ?_, keep, ?_⟩
  · intro env args calls
    simp [callSessionMethod, readSessionProp, hget, callValue]
  · intro k2 kind2 hk2 hf
    rcases patchOn_get_capability s h.closures k2 kind2 hk2 with ⟨ht, _⟩ | ⟨_, c, hle, _, hg⟩
    · rw [hf] at ht
      exact absurd ht (by decide)
    · exact ⟨c, hle, hg⟩

theorem shim_keeps_native_capabilities_witness :
    signedInHeap.req.session = .obj signedInSession ∧
    ("regenerate", SubstKind.regenerate) ∈ capabilities ∧
    signedInSession.get "regenerate" = .fn (.native 7) ∧
    ∃ h' s', patchSession signedInHeap = .ok h' ∧ h'.req.session = .obj s' ∧
      s'.get "regenerate" = .fn (.native 7) ∧
      (∀ env args calls,
        callSessionMethod env "regenerate" args ⟨h', calls⟩
          = callExternal env 7 args ⟨h', calls⟩) ∧
      (∀ k2 kind2, (k2, kind2) ∈ capabilities → (signedInSession.get k2).isCallable = true →
        s'.get k2 = signedInSession.get k2) ∧
      (∀ k2 kind2, (k2, kind2) ∈ capabilities → (signedInSession.get k2).truthy = false →
        ∃ c, signedInHeap.closures ≤ c ∧ s'.get k2 = .fn (.subst kind2 c)) :=
  ⟨rfl, by simp [capabilities], by simp [signedInSession, Session.get],
    shim_keeps_native_capabilities signedInHeap signedInSession rfl "regenerate" .regenerate
      (by simp [capabilities]) 7 (by simp [signedInSession, Session.get])⟩

/-- Value found under a capability name the session did not have. -/
theorem patchOn_installed (s : Session) (c : Nat) (k : String) (kind : SubstKind)
    (hk : (k, kind) ∈ capabilities) (hf : (s.get k).truthy = false) :
    ∃ c', (patchOn (s, c)).1.get k = .fn (.subst kind c') := by
  rcases patchOn_get_capability s c k kind hk with ⟨ht, _⟩ | ⟨_, c', _, _, hg⟩
  · rw [hf] at ht
    exact absurd ht (by decide)
  · exact ⟨c', hg⟩

/-- C3: when the session had no `destroy`, calling the installed one with
a completion callback (outside function `n`) first sets `req.session` to
`null` and then calls the callback, once and with no argument: the
callback starts in a heap whose session reference is `null`, where reading
any session field yields no value; the method makes no other call and
signals no error of its own.  Unless the callback itself assigns the
session again, reading a session field after the call yields no value
either. -/
theorem substitute_destroy_nulls_session (h : Heap) (s : Session)
    (hs : h.req.session = .obj s) (hd : (s.get "destroy").truthy = false)
    (env : ExtSem) (n : Nat) (calls : List (Nat × List Value)) :
    ∃ h', patchSession h = .ok h' ∧
      callSessionMethod env "destroy" [.fn (.native n)] ⟨h', calls⟩
        = callExternal env n [] (assignSessionNull ⟨h', calls⟩) ∧
      (assignSessionNull ⟨h', calls⟩).heap.req.session = .null ∧
      (∀ k v, readSessionProp (assignSessionNull ⟨h', calls⟩).heap k ≠ .ok v) ∧
      (callSessionMethod env "destroy" [.fn (.native n)] ⟨h', calls⟩).world.calls
        = calls ++ [(n, [])] ∧
      (callSessionMethod env "destroy" [.fn (.native n)] ⟨h', calls⟩).error
        = (env n [] (assignSessionNull ⟨h', calls⟩).heap).error ∧
      ((env n [] (assignSessionNull ⟨h', calls⟩).heap).heap.req.session = .null →
        ∀ k v, readSessionProp
          (callSessionMethod env "destroy" [.fn (.native n)] ⟨h', calls⟩).world.heap k
            ≠ .ok v) := by
  obtain ⟨c, hc⟩ := patchOn_installed s h.closures "destroy" .destroy
    (by simp [capabilities]) hd
  have hcall : ∀ h2 : Heap, h2.req.session = .obj (patchOn (s, h.closures)).1 →
      callSessionMethod env "destroy" [.fn (.native n)] ⟨h2, calls⟩
        = callExternal env n [] (assignSessionNull ⟨h2, calls⟩) := by
    intro h2 h2s
    simp [callSessionMethod, readSessionProp, h2s, hc, callValue, runSubst, callNullary]
  refine ⟨_, patchSession_obj h s hs, ?_, rfl, ?_, ?_, ?_, ?_⟩
  · exact hcall _ rfl
  · intro k v
    simp [readSessionProp, assignSessionNull]
  · rw [hcall _ rfl]
    rfl
  · rw [hcall _ rfl]
    rfl
  · intro hnull k v
    rw [hcall _ rfl]
    simp only [callExternal]
    simp [readSessionProp, hnull]

theorem substitute_destroy_nulls_session_witness :
    freshHeap.req.session = .obj [] ∧ (Session.get [] "destroy").truthy = false ∧
    ∃ h', patchSession freshHeap = .ok h' ∧
      callSessionMethod idleEnv "destroy" [.fn (.native 3)] ⟨h', []⟩
        = callExternal idleEnv 3 [] (assignSessionNull ⟨h', []⟩) ∧
      (assignSessionNull ⟨h', []⟩).heap.req.session = .null ∧
      (∀ k v, readSessionProp (assignSessionNull ⟨h', []⟩).heap k ≠ .ok v) ∧
      (callSessionMethod idleEnv "destroy" [.fn (.native 3)] ⟨h', []⟩).world.calls
        = [] ++ [(3, [])] ∧
      (callSessionMethod idleEnv "destroy" [.fn (.native 3)] ⟨h', []⟩).error
        = (idleEnv 3 [] (assignSessionNull ⟨h', []⟩).heap).error ∧
      ((idleEnv 3 [] (assignSessionNull ⟨h', []⟩).heap).heap.req.session = .null →
        ∀ k v, readSessionProp
          (callSessionMethod idleEnv "destroy" [.fn (.native 3)] ⟨h', []⟩).world.heap k
            ≠ .ok v) :=
  ⟨rfl, rfl, substitute_destroy_nulls_session freshHeap [] rfl rfl idleEnv 3 []⟩

/-- C4: when the session had no `regenerate`, calling the installed one
with a completion callback (outside function `n`) is exactly one call of
the callback with no argument, made before the method returns, in the heap
in which the method was called: the method itself changes no session
field and not the session reference, makes no other call and signals no
error of its own. -/
theorem substitute_regenerate_calls_back (h : Heap) (s : Session)
    (hs : h.req.session = .obj s) (hr : (s.get "regenerate").truthy = false)
    (env : ExtSem) (n : Nat) (calls : List (Nat × List Value)) :
    ∃ h', patchSession h = .ok h' ∧
      callSessionMethod env "regenerate" [.fn (.native n)] ⟨h', calls⟩
        = callExternal env n [] ⟨h', calls⟩ ∧
      (callSessionMethod env "regenerate" [.fn (.native n)] ⟨h', calls⟩).world.calls
        = calls ++ [(n, [])] ∧
      (callSessionMethod env "regenerate" [.fn (.native n)] ⟨h', calls⟩).world.heap
        = (env n [] h').heap ∧
      (callSessionMethod env "regenerate" [.fn (.native n)] ⟨h', calls⟩).error
        = (env n [] h').error := by
  obtain ⟨c, hc⟩ := patchOn_installed s h.closures "regenerate" .regenerate
    (by simp [capabilities]) hr
  have hcall : ∀ h2 : Heap, h2.req.session = .obj (patchOn (s, h.closures)).1 →
      callSessionMethod env "regenerate" [.fn (.native n)] ⟨h2, calls⟩
        = callExternal env n [] ⟨h2, calls⟩ := by
    intro h2 h2s
    simp [callSessionMethod, readSessionProp, h2s, hc, callValue, runSubst, callNullary]
  refine ⟨_, patchSession_obj h s hs, hcall _ rfl, ?_, ?_, ?_⟩ <;>
  · rw [hcall _ rfl]
    rfl

theorem substitute_regenerate_calls_back_witness :
    userHeap.req.session = .obj [("passport", .obj 1)] ∧
    (Session.get [("passport", .obj 1)] "regenerate").truthy = false ∧
    ∃ h', patchSession userHeap = .ok h' ∧
      callSessionMethod idleEnv "regenerate" [.fn (.native 3)] ⟨h', []⟩
        = callExternal idleEnv 3 [] ⟨h', []⟩ ∧
      (callSessionMethod idleEnv "regenerate" [.fn (.native 3)] ⟨h', []⟩).world.calls
        = [] ++ [(3, [])] ∧
      (callSessionMethod idleEnv "regenerate" [.fn (.native 3)] ⟨h', []⟩).world.heap
        = (idleEnv 3 [] h').heap ∧
      (callSessionMethod idleEnv "regenerate" [.fn (.native 3)] ⟨h', []⟩).error
        = (idleEnv 3 [] h').error :=
  ⟨rfl, by decide,
    substitute_regenerate_calls_back userHeap [("passport", .obj 1)] rfl (by decide) idleEnv 3 []⟩

/-- C5: when the session had no `save`, calling the installed one with a
completion callback (outside function `n`) is exactly one call of the
callback with no argument, in the heap in which the method was called: the
method itself changes no session field and not the session reference,
makes no other call and signals no error of its own. -/
theorem substitute_save_calls_back (h : Heap) (s : Session)
    (hs : h.req.session = .obj s) (hv : (s.get "save").truthy = false)
    (env : ExtSem) (n : Nat) (calls : List (Nat × List Value)) :
    ∃ h', patchSession h = .ok h' ∧
      callSessionMethod env "save" [.fn (.native n)] ⟨h', calls⟩
        = callExternal env n [] ⟨h', calls⟩ ∧
      (callSessionMethod env "save" [.fn (.native n)] ⟨h', calls⟩).world.calls
        = calls ++ [(n, [])] ∧
      (callSessionMethod env "save" [.fn (.native n)] ⟨h', calls⟩).world.heap
        = (env n [] h').heap ∧
      (callSessionMethod env "save" [.fn (.native n)] ⟨h', calls⟩).error
        = (env n [] h').error := by
  obtain ⟨c, hc⟩ := patchOn_installed s h.closures "save" .save
    (by simp [capabilities]) hv
  have hcall : ∀ h2 : Heap, h2.req.session = .obj (patchOn (s, h.closures)).1 →
      callSessionMethod env "save" [.fn (.native n)] ⟨h2, calls⟩
        = callExternal env n [] ⟨h2, calls⟩ := by
    intro h2 h2s
    simp [callSessionMethod, readSessionProp, h2s, hc, callValue, runSubst, callNullary]
  refine ⟨_, patchSession_obj h s hs, hcall _ rfl, ?_, ?_, ?_⟩ <;>
  · rw [hcall _ rfl]
    rfl

theorem substitute_save_calls_back_witness :
    signedInHeap.req.session = .obj signedInSession ∧
    (signedInSession.get "save").truthy = false ∧
    ∃ h', patchSession signedInHeap = .ok h' ∧
      callSessionMethod idleEnv "save" [.fn (.native 3)] ⟨h', [(9, [])]⟩
        = callExternal idleEnv 3 [] ⟨h', [(9, [])]⟩ ∧
      (callSessionMethod idleEnv "save" [.fn (.native 3)] ⟨h', [(9, [])]⟩).world.calls
        = [(9, [])] ++ [(3, [])] ∧
      (callSessionMethod idleEnv "save" [.fn (.native 3)] ⟨h', [(9, [])]⟩).world.heap
        = (idleEnv 3 [] h').heap ∧
      (callSessionMethod idleEnv "save" [.fn (.native 3)] ⟨h', [(9, [])]⟩).error
        = (idleEnv 3 [] h').error :=
  ⟨rfl, by decide,
    substitute_save_calls_back signedInHeap signedInSession rfl (by decide) idleEnv 3 [(9, [])]⟩

/-- C6: the middleware cannot fail.  For every request, with or without a
session, its body runs to the call `next()` without an error, and the
middleware is exactly one call of `next` (outside function `n`) with no
argument; any error of the outcome is the one `next` itself returned.
When `req.session` is `null` or `undefined` the body leaves the heap as it
was: no session is created, nothing is installed, no closure is made. -/
theorem shim_cannot_fail (env : ExtSem) (n : Nat) (w : World) :
    (∃ h', patchSession w.heap = .ok h' ∧
      sessionPatch env (.fn (.native n)) w = callExternal env n [] ⟨h', w.calls⟩ ∧
      (sessionPatch env (.fn (.native n)) w).world.calls = w.calls ++ [(n, [])] ∧
      (sessionPatch env (.fn (.native n)) w).error = (env n [] h').error) ∧
    (w.heap.req.session.truthy = false →
      patchSession w.heap = .ok w.heap ∧
      sessionPatch env (.fn (.native n)) w = callExternal env n [] w) := by
  have hex : ∃ h', patchSession w.heap = .ok h' := by
    cases hsess : w.heap.req.session with
    | undefined => exact ⟨_, patchSession_absent _ (by rw [hsess]; rfl)⟩
    | null => exact ⟨_, patchSession_absent _ (by rw [hsess]; rfl)⟩
    | obj s => exact ⟨_, patchSession_obj _ s hsess⟩
  obtain ⟨h', hp⟩ := hex
  have hrun : sessionPatch env (.fn (.native n)) w = callExternal env n [] ⟨h', w.calls⟩ := by
    simp [sessionPatch, hp, callNullary]
  refine ⟨⟨h', hp, hrun, by rw [hrun]; rfl, by rw [hrun]; rfl⟩, ?_⟩
  intro habs
  have hp2 := patchSession_absent w.heap habs
  refine ⟨hp2, ?_⟩
  simp [sessionPatch, hp2, callNullary]

theorem shim_cannot_fail_witness :
    noSessionHeap.req.session.truthy = false ∧
    patchSession noSessionHeap = .ok noSessionHeap ∧
    sessionPatch idleEnv (.fn (.native 2)) ⟨noSessionHeap, []⟩
      = callExternal idleEnv 2 [] ⟨noSessionHeap, []⟩ :=
  ⟨rfl, (shim_cannot_fail idleEnv 2 ⟨noSessionHeap, []⟩).2 rfl⟩

/-- C7: the middleware body is idempotent.  For every heap the body
succeeds, and running it again on the result gives that same result: the
second run writes no property and creates no closure, so a function
installed by the first run stays the very closure it was. -/
theorem shim_idempotent (h : Heap) :
    ∃ h1, patchSession h = .ok h1 ∧ patchSession h1 = .ok h1 := by
  cases hsess : h.req.session with
  | undefined =>
    have hp := patchSession_absent h (by rw [hsess]; rfl)
    exact ⟨h, hp, hp⟩
  | null =>
    have hp := patchSession_absent h (by rw [hsess]; rfl)
    exact ⟨h, hp, hp⟩
  | obj s =>
    refine ⟨_, patchSession_obj h s hsess, ?_⟩
    rw [patchSession_obj _ (patchOn (s, h.closures)).1 rfl]
    simp only
    have hid := patchOn_idem (s, h.closures)
    have e : ((patchOn (s, h.closures)).1, (patchOn (s, h.closures)).2) = patchOn (s, h.closures) :=
      rfl
    rw [e, hid]

/-- C8: for every value of `NODE_ENV` (set or not) the cookie options have
`maxAge` 24*60*60*1000 = 86400000 milliseconds, `httpOnly` true, and
`secure` true exactly when `NODE_ENV` is the string `production`. -/
theorem cookie_options_by_mode (nodeEnv : Option String) (cookieKey : String) :
    (cookieOptions nodeEnv cookieKey).maxAge = 86400000 ∧
    (cookieOptions nodeEnv cookieKey).maxAge = 24 * 60 * 60 * 1000 ∧
    (cookieOptions nodeEnv cookieKey).httpOnly = true ∧
    ((cookieOptions nodeEnv cookieKey).secure = true ↔ nodeEnv = some "production") := by
  simp [cookieOptions]

/-- The two unconditional stages at the head of the stack run first: a
walk over the application's stack is the session stage alone, the session
stage and the patch middleware, or these two followed by later stages. -/
theorem dispatch_appStack_head (result : Stage → StageResult) (r : HttpRequest) :
    dispatch result r appStack = [.cookieSession] ∨
    dispatch result r appStack = [.cookieSession, .sessionPatch] ∨
    ∃ tail, dispatch result r appStack = .cookieSession :: .sessionPatch :: tail := by
  cases h1 : result .cookieSession <;> cases h2 : result .sessionPatch <;>
    simp [appStack, dispatch, stageMatches, h1, h2]

/-- C9: in the registration order the session stage comes before the patch
middleware, the patch middleware before `passport.initialize()`, that
before `passport.session()`, and both before the route groups and the home
route.  Hence, whatever the stages do and whatever the request is, when a
stage of the authentication layer or a route handler runs, the session
stage and the patch middleware have already run on that request. -/
theorem shim_runs_before_auth_and_routes :
    appStack.indexOf Stage.cookieSession < appStack.indexOf Stage.sessionPatch ∧
    appStack.indexOf Stage.sessionPatch < appStack.indexOf Stage.passportInitialize ∧
    appStack.indexOf Stage.passportInitialize < appStack.indexOf Stage.passportSession ∧
    appStack.indexOf Stage.passportSession < appStack.indexOf Stage.authRoutes ∧
    appStack.indexOf Stage.authRoutes < appStack.indexOf Stage.profileRoutes ∧
    appStack.indexOf Stage.profileRoutes < appStack.indexOf Stage.homeRoute ∧
    appStack.Nodup ∧
    ∀ (result : Stage → StageResult) (r : HttpRequest) (pre post : List Stage) (st : Stage),
      dispatch result r appStack = pre ++ st :: post → st.isAuthOrRoute = true →
        ∃ mid, pre = Stage.cookieSession :: Stage.sessionPatch :: mid := by
  refine ⟨by decide, by decide, by decide, by decide, by decide, by decide, by decide, ?_⟩
  intro result r pre post st hrun hst
  rcases dispatch_appStack_head result r with h0 | h0 | ⟨tail, h0⟩
  · rw [h0] at hrun
    cases pre with
    | nil =>
      simp only [List.nil_append, List.cons.injEq] at hrun
      rw [← hrun.1] at hst
      exact absurd hst (by decide)
    | cons a pre2 => cases pre2 <;> simp at hrun
  · rw [h0] at hrun
    cases pre with
    | nil =>
      simp only [List.nil_append, List.cons.injEq] at hrun
      rw [← hrun.1] at hst
      exact absurd hst (by decide)
    | cons a pre2 =>
      cases pre2 with
      | nil =>
        simp only [List.cons_append, List.nil_append, List.cons.injEq] at hrun
        rw [← hrun.2.1] at hst
        exact absurd hst (by decide)
      | cons b pre3 => cases pre3 <;> simp at hrun
  · rw [h0] at hrun
    cases pre with
    | nil =>
      simp only [List.nil_append, List.cons.injEq] at hrun
      rw [← hrun.1] at hst
      exact absurd hst (by decide)
    | cons a pre2 =>
      cases pre2 with
      | nil =>
        simp only [List.cons_append, List.nil_append, List.cons.injEq] at hrun
        rw [← hrun.2.1] at hst
        exact absurd hst (by decide)
      | cons b pre3 =>
        simp only [List.cons_append, List.cons.injEq] at hrun
        exact ⟨pre3, by rw [← hrun.1, ← hrun.2.1]⟩

/-- C10: on a request with a session object the middleware body changes
nothing but the values under `regenerate`, `destroy` and `save`: every
other session property keeps its value and its presence, no property is
removed, `req.session` is still a session object, the other properties of
the request and the response are as before; and under each of the three
names the value is either the one that was there or, when that one was
absent or falsy, a new closure. -/
theorem shim_frame (h : Heap) (s : Session) (hs : h.req.session = .obj s) :
    ∃ h' s', patchSession h = .ok h' ∧ h'.req.session = .obj s' ∧
      h'.req.props = h.req.props ∧ h'.res = h.res ∧
      (∀ k, (∀ kind, (k, kind) ∉ capabilities) →
        s'.get k = s.get k ∧ s'.has k = s.has k) ∧
      (∀ k, s.has k = true → s'.has k = true) ∧
      (∀ k kind, (k, kind) ∈ capabilities →
        s'.get k = s.get k ∨
        ((s.get k).truthy = false ∧ ∃ c, h.closures ≤ c ∧ s'.get k = .fn (.subst kind c))) := by
  refine ⟨_, _, patchSession_obj h s hs, rfl, rfl, rfl, ?_, ?_, ?_⟩
  · intro k hk
    refine ⟨patchOn_get_other s h.closures k hk, ?_⟩
    have hh := patchOn_has s h.closures k
    rw [Bool.eq_iff_iff]
    constructor
    · intro h1
      rcases hh.2 h1 with h2 | ⟨kind, h2⟩
      · exact h2
      · exact absurd h2 (hk kind)
    · exact hh.1
  · intro k hk
    exact (patchOn_has s h.closures k).1 hk
  · intro k kind hk
    rcases patchOn_get_capability s h.closures k kind hk with ⟨_, hg⟩ | ⟨hf, c, hle, _, hg⟩
    · exact Or.inl hg
    · exact Or.inr ⟨hf, c, hle, hg⟩

theorem shim_frame_witness :
    signedInHeap.req.session = .obj signedInSession ∧
    ∃ h' s', patchSession signedInHeap = .ok h' ∧ h'.req.session = .obj s' ∧
      h'.req.props = signedInHeap.req.props ∧ h'.res = signedInHeap.res ∧
      (∀ k, (∀ kind, (k, kind) ∉ capabilities) →
        s'.get k = signedInSession.get k ∧ s'.has k = signedInSession.has k) ∧
      (∀ k, signedInSession.has k = true → s'.has k = true) ∧
      (∀ k kind, (k, kind) ∈ capabilities →
        s'.get k = signedInSession.get k ∨
        ((signedInSession.get k).truthy = false ∧
          ∃ c, signedInHeap.closures ≤ c ∧ s'.get k = .fn (.subst kind c))) :=
  ⟨rfl, shim_frame signedInHeap signedInSession rfl⟩

/-- Concrete run: a signed-in user asks for a page below `/profile`, every
stage hands over with `next()`. -/
theorem dispatch_profile_example :
    dispatch (fun _ => .next) ⟨"GET", ["PROFILE", "me"]⟩ appStack =
      [.cookieSession, .sessionPatch, .passportInitialize, .passportSession,
       .profileRoutes] := by
  decide

/-- Concrete run of the middleware body on the empty session object. -/
theorem patchSession_fresh_example :
    patchSession freshHeap = .ok
      { req := { session := .obj [("regenerate", .fn (.subst .regenerate 0)),
                                  ("destroy", .fn (.subst .destroy 1)),
                                  ("save", .fn (.subst .save 2))],
                 props := [] },
        res := { props := [] }, closures := 3 } := by
  rfl

end App
